import Mathlib

/-!
Verification of the transcoding core of the `http-proxy` repository
(`src/compress.rs`, `src/main.rs`, `src/config.rs`).

Bytes are modelled as `List Nat`.  The underlying gzip / zstd stream
codecs are external library code (`flate2`, `zstd`); following the
spec, which treats them as black-box stream codecs with a known
write/finish contract, they are modelled as abstract state machines
(`EncBox`, `DecBox`).  Everything layered on top of them — the
`Compressor` / `Decompressor` / `ZstdCompressor` / `ZstdDecompressor`
wrappers with their `total_in` / `total_out` counters, the
`Compreessor0` / `Decompreessor0` dispatch enums, the per-request
context, the header-decision step `upstream_request_filter` and the
body filter `request_body_filter` — is translated directly from the
Rust source.
-/

/-- Result of one `encode` call, distinguishing the three ways a Rust
call can end: `Ok`, `Err` (the `?` / `or_err` paths) and a panic (the
`.unwrap()` on a failing `Result`). -/
inductive Res (α : Type) where
  | ok (a : α)
  | err (e : String)
  | panic
deriving DecidableEq

/-- Modelled from the spec: the black-box compressing stream codec
(`flate2::write::GzEncoder` / `zstd::stream::write::Encoder` writing
into a `Vec<u8>`).  `writeOne` consumes a non-empty chunk and appends
whatever bytes the algorithm is willing to emit to the output sink;
`finish` flushes all remaining buffered output.  Writing into a `Vec`
never fails, so both operations are total. -/
structure EncBox where
  St : Type
  init : St
  writeOne : St → List Nat → St × List Nat
  finish : St → St × List Nat

/-- Modelled from the spec: the black-box decompressing stream codec
(`flate2::write::GzDecoder` / `zstd::stream::write::Decoder` writing
into a `Vec<u8>`).  `writeOne` may fail when the input is not valid
for the expected format; `tryFinish` (gzip `try_finish`, zstd `flush`)
may fail on a truncated / malformed stream. -/
structure DecBox where
  St : Type
  init : St
  writeOne : St → List Nat → St × Except String (List Nat)
  tryFinish : St → St × Except String (List Nat)

/-- `Write::write_all` on a compressing codec: an empty buffer performs
no `write` call at all, otherwise the chunk is handed to the codec. -/
def encWriteAll (B : EncBox) (st : B.St) (input : List Nat) : B.St × List Nat :=
  match input with
  | [] => (st, [])
  | x :: t => B.writeOne st (x :: t)

/-- `Write::write_all` on a decompressing codec: an empty buffer performs
no `write` call at all, otherwise the chunk is handed to the codec. -/
def decWriteAll (B : DecBox) (st : B.St) (input : List Nat) : B.St × Except String (List Nat) :=
  match input with
  | [] => (st, Except.ok [])
  | x :: t => B.writeOne st (x :: t)

/-- State of `compress.rs::Compressor` / `compress.rs::ZstdCompressor`:
the underlying encoder handle, its output `Vec` (`buf`), and the
running byte counters.  The `duration` field of the source is wall
clock time and is not modelled. -/
structure CompressorSt (B : EncBox) where
  st : B.St
  buf : List Nat
  total_in : Nat
  total_out : Nat

/-- State of `compress.rs::Decompressor` / `compress.rs::ZstdDecompressor`. -/
structure DecompressorSt (B : DecBox) where
  st : B.St
  buf : List Nat
  total_in : Nat
  total_out : Nat

/-- `Compressor::new` (the compression level is part of `B.init`). -/
def Compressor.new (B : EncBox) : CompressorSt B := ⟨B.init, [], 0, 0⟩

/-- `ZstdCompressor::new`. -/
def ZstdCompressor.new (B : EncBox) : CompressorSt B := ⟨B.init, [], 0, 0⟩

/-- `Decompressor::new`. -/
def Decompressor.new (B : DecBox) : DecompressorSt B := ⟨B.init, [], 0, 0⟩

/-- `ZstdDecompressor::new`. -/
def ZstdDecompressor.new (B : DecBox) : DecompressorSt B := ⟨B.init, [], 0, 0⟩

/-- `compress.rs` line 107: `MAX_INIT_COMPRESSED_BUF_SIZE = 16 * 1024`. -/
def MAX_INIT_COMPRESSED_BUF_SIZE : Nat := 16 * 1024

/-- `compress.rs` line 52: `MAX_INIT_COMPRESSED_SIZE_CAP = 4 * 1024`. -/
def MAX_INIT_COMPRESSED_SIZE_CAP : Nat := 4 * 1024

/-- `compress.rs` line 53: the source constant `ESTIMATED_COMPRESSION_RATIO = 3`
(estimated 2.5-3x compression). -/
def estCompressionFactor : Nat := 3

/-- The number of bytes `Compressor::encode` reserves on its output
buffer: `min(MAX_INIT_COMPRESSED_BUF_SIZE, input.len())` (line 112). -/
def CompressorReserveSize (len : Nat) : Nat :=
  min MAX_INIT_COMPRESSED_BUF_SIZE len

/-- The number of bytes `Decompressor::encode` reserves on its output
buffer (lines 58-62): `input.len() * ESTIMATED_COMPRESSION_RATIO` when
the input is below `MAX_INIT_COMPRESSED_SIZE_CAP`, else `input.len()`. -/
def DecompressorReserveSize (len : Nat) : Nat :=
  if len < MAX_INIT_COMPRESSED_SIZE_CAP then len * estCompressionFactor else len

/-- The number of bytes `ZstdDecompressor::encode` reserves on its
output buffer (line 228): `input.len() * 2`, unconditionally. -/
def ZstdDecompressorReserveSize (len : Nat) : Nat := len * 2

/-- `Compressor::encode` (compress.rs lines 105-120): bump `total_in`,
`write_all` the chunk into the encoder (emitted bytes land in the
inner `Vec`), `try_finish` when `end` is set, bump `total_out` by the
buffer length, and return the whole buffer via `mem::take` (the buffer
is left empty).  Both unwraps are on writes into a `Vec` and cannot
fail, so the function is total. -/
def Compressor.encode (B : EncBox) (c : CompressorSt B) (input : List Nat) (endF : Bool) :
    CompressorSt B × List Nat :=
  let p := encWriteAll B c.st input
  let buf2 := if endF then c.buf ++ p.2 ++ (B.finish p.1).2 else c.buf ++ p.2
  let st2 := if endF then (B.finish p.1).1 else p.1
  (⟨st2, [], c.total_in + input.length, c.total_out + buf2.length⟩, buf2)

/-- `ZstdCompressor::encode` (compress.rs lines 179-194): identical
control flow to `Compressor::encode` (`do_finish` instead of
`try_finish`). -/
def ZstdCompressor.encode (B : EncBox) (c : CompressorSt B) (input : List Nat) (endF : Bool) :
    CompressorSt B × List Nat :=
  let p := encWriteAll B c.st input
  let buf2 := if endF then c.buf ++ p.2 ++ (B.finish p.1).2 else c.buf ++ p.2
  let st2 := if endF then (B.finish p.1).1 else p.1
  (⟨st2, [], c.total_in + input.length, c.total_out + buf2.length⟩, buf2)

/-- `Decompressor::encode` (compress.rs lines 51-77): `total_in` is
bumped first; a failing `write_all` or `try_finish` is surfaced as an
`Err` via `or_err`/`?`, in which case `total_out` is not updated and
the buffer keeps whatever was flushed before the error. -/
def Decompressor.encode (B : DecBox) (d : DecompressorSt B) (input : List Nat) (endF : Bool) :
    DecompressorSt B × Res (List Nat) :=
  let ti := d.total_in + input.length
  match decWriteAll B d.st input with
  | (st1, Except.error e) => (⟨st1, d.buf, ti, d.total_out⟩, Res.err e)
  | (st1, Except.ok o1) =>
    if endF then
      match B.tryFinish st1 with
      | (st2, Except.error e) => (⟨st2, d.buf ++ o1, ti, d.total_out⟩, Res.err e)
      | (st2, Except.ok o2) =>
        (⟨st2, [], ti, d.total_out + (d.buf ++ o1 ++ o2).length⟩, Res.ok (d.buf ++ o1 ++ o2))
    else
      (⟨st1, [], ti, d.total_out + (d.buf ++ o1).length⟩, Res.ok (d.buf ++ o1))

/-- `ZstdDecompressor::encode` (compress.rs lines 225-239): a failing
`write_all` is surfaced as an `Err` via `or_err`/`?`, but the final
`flush()` is followed by `.unwrap()`, so a flush-time error is a
panic, not an `Err`. -/
def ZstdDecompressor.encode (B : DecBox) (d : DecompressorSt B) (input : List Nat) (endF : Bool) :
    DecompressorSt B × Res (List Nat) :=
  let ti := d.total_in + input.length
  match decWriteAll B d.st input with
  | (st1, Except.error e) => (⟨st1, d.buf, ti, d.total_out⟩, Res.err e)
  | (st1, Except.ok o1) =>
    if endF then
      match B.tryFinish st1 with
      | (st2, Except.error _) => (⟨st2, d.buf ++ o1, ti, d.total_out⟩, Res.panic)
      | (st2, Except.ok o2) =>
        (⟨st2, [], ti, d.total_out + (d.buf ++ o1 ++ o2).length⟩, Res.ok (d.buf ++ o1 ++ o2))
    else
      (⟨st1, [], ti, d.total_out + (d.buf ++ o1).length⟩, Res.ok (d.buf ++ o1))

/-- `Compressor::stat` (duration dropped): `("gzip", total_in, total_out)`. -/
def Compressor.stat {B : EncBox} (c : CompressorSt B) : String × Nat × Nat :=
  ("gzip", c.total_in, c.total_out)

/-- `ZstdCompressor::stat`: `("zstd", total_in, total_out)`. -/
def ZstdCompressor.stat {B : EncBox} (c : CompressorSt B) : String × Nat × Nat :=
  ("zstd", c.total_in, c.total_out)

/-- `Decompressor::stat`: `("de-gzip", total_in, total_out)`. -/
def Decompressor.stat {B : DecBox} (d : DecompressorSt B) : String × Nat × Nat :=
  ("de-gzip", d.total_in, d.total_out)

/-- `ZstdDecompressor::stat`: `("de-zstd", total_in, total_out)`. -/
def ZstdDecompressor.stat {B : DecBox} (d : DecompressorSt B) : String × Nat × Nat :=
  ("de-zstd", d.total_in, d.total_out)

/-- An HTTP header map, as the list of its (name, value) pairs.  Header
names are case-insensitive on the wire; all names this program touches
are written in their lowercase canonical form. -/
abbrev Headers := List (String × String)

/-- Header lookup (first value stored under the name). -/
def hdrGet (h : Headers) (k : String) : Option String :=
  match h with
  | [] => none
  | (k', v) :: t => if k' = k then some v else hdrGet t k

/-- `remove_header`: drop every value stored under the name. -/
def hdrRemove (h : Headers) (k : String) : Headers :=
  match h with
  | [] => []
  | (k', v) :: t => if k' = k then hdrRemove t k else (k', v) :: hdrRemove t k

/-- `insert_header`: replace any existing value under the name. -/
def hdrInsert (h : Headers) (k : String) (v : String) : Headers :=
  hdrRemove h k ++ [(k, v)]

/-- `main.rs::Op` — the per-request transcoding decision. -/
inductive Op where
  | None
  | Compress
  | Decompress
deriving DecidableEq

/-- Which concrete format family a codec instance belongs to. -/
inductive Fam where
  | gzip
  | zstd
deriving DecidableEq

/-- `main.rs::Compreessor0` (name kept from the source): the tagged
union over the two compressor variants.  Parameterized by the two
underlying black-box encoders. -/
inductive Compreessor0 (Eg Ez : EncBox) where
  | Gzip (c : CompressorSt Eg)
  | Zstd (c : CompressorSt Ez)

/-- `main.rs::Decompreessor0` (name kept from the source). -/
inductive Decompreessor0 (Dg Dz : DecBox) where
  | Gzip (d : DecompressorSt Dg)
  | Zstd (d : DecompressorSt Dz)

/-- `Compreessor0::encode`: dispatch to the held concrete compressor. -/
def Compreessor0.encode {Eg Ez : EncBox} (c0 : Compreessor0 Eg Ez)
    (input : List Nat) (endF : Bool) : Compreessor0 Eg Ez × List Nat :=
  match c0 with
  | .Gzip c =>
    let r := Compressor.encode Eg c input endF
    (.Gzip r.1, r.2)
  | .Zstd c =>
    let r := ZstdCompressor.encode Ez c input endF
    (.Zstd r.1, r.2)

/-- `Decompreessor0::encode`: dispatch to the held concrete decompressor. -/
def Decompreessor0.encode {Dg Dz : DecBox} (d0 : Decompreessor0 Dg Dz)
    (input : List Nat) (endF : Bool) : Decompreessor0 Dg Dz × Res (List Nat) :=
  match d0 with
  | .Gzip d =>
    let r := Decompressor.encode Dg d input endF
    (.Gzip r.1, r.2)
  | .Zstd d =>
    let r := ZstdDecompressor.encode Dz d input endF
    (.Zstd r.1, r.2)

/-- The format family of a held decompressor. -/
def Decompreessor0.fam {Dg Dz : DecBox} : Decompreessor0 Dg Dz → Fam
  | .Gzip _ => .gzip
  | .Zstd _ => .zstd

/-- The format family of a held compressor. -/
def Compreessor0.fam {Eg Ez : EncBox} : Compreessor0 Eg Ez → Fam
  | .Gzip _ => .gzip
  | .Zstd _ => .zstd

/-- `main.rs::ProxyCtx` — the per-request context. -/
structure ProxyCtx (Eg Ez : EncBox) (Dg Dz : DecBox) where
  op : Op
  compressor : Option (Compreessor0 Eg Ez)
  decompressor : Option (Decompreessor0 Dg Dz)

/-- `Proxy0::new_ctx`. -/
def newCtx (Eg Ez : EncBox) (Dg Dz : DecBox) : ProxyCtx Eg Ez Dg Dz :=
  ⟨.None, none, none⟩

/-- `Proxy0::upstream_request_filter` (main.rs lines 126-168), the
one-time transcoding decision.  `zstdCfg` is the proxy's static
`zstd` configuration switch (set to `true` in `main`).

No `content-encoding` on the request: move any `content-length` to the
side-channel header `crd-content-length`, set `content-encoding` to
the configured format, set `transfer-encoding: Chunked`, and install a
fresh compressor of the configured family.

`content-encoding` present: install a fresh decompressor of the
configured family, advertise the configured format via
`accept-encoding`, and, when the side-channel header is present, copy
its value back into `content-length` and remove `transfer-encoding`
(the side-channel header itself is left in place). -/
def upstreamRequestFilter (Eg Ez : EncBox) (Dg Dz : DecBox) (zstdCfg : Bool)
    (req : Headers) (ctx : ProxyCtx Eg Ez Dg Dz) :
    Headers × ProxyCtx Eg Ez Dg Dz :=
  if hdrGet req "content-encoding" = none then
    let req1 := hdrRemove req "content-length"
    let req2 :=
      match hdrGet req "content-length" with
      | some cl => hdrInsert req1 "crd-content-length" cl
      | none => req1
    let req3 :=
      if zstdCfg then hdrInsert req2 "content-encoding" "zstd"
      else hdrInsert req2 "content-encoding" "gzip"
    let comp : Compreessor0 Eg Ez :=
      if zstdCfg then .Zstd (ZstdCompressor.new Ez) else .Gzip (Compressor.new Eg)
    let req4 := hdrInsert req3 "transfer-encoding" "Chunked"
    (req4, { op := .Compress, compressor := some comp, decompressor := ctx.decompressor })
  else
    let req1 :=
      if zstdCfg then hdrInsert req "accept-encoding" "zstd"
      else hdrInsert req "accept-encoding" "gzip"
    let dec : Decompreessor0 Dg Dz :=
      if zstdCfg then .Zstd (ZstdDecompressor.new Dz) else .Gzip (Decompressor.new Dg)
    let req2 :=
      match hdrGet req1 "crd-content-length" with
      | some cl => hdrRemove (hdrInsert req1 "content-length" cl) "transfer-encoding"
      | none => req1
    (req2, { op := .Decompress, compressor := ctx.compressor, decompressor := some dec })

/-- `Proxy0::request_body_filter` (main.rs lines 170-198): when a
compressor is held, replace the body (a `None` body is read as the
empty chunk) with the compressor's output; then, when a decompressor
is held, do the same through the decompressor, propagating its error
with `?`.  The returned `Res Unit` is the function's own `Result`. -/
def requestBodyFilter (Eg Ez : EncBox) (Dg Dz : DecBox)
    (ctx : ProxyCtx Eg Ez Dg Dz) (body : Option (List Nat)) (endF : Bool) :
    (ProxyCtx Eg Ez Dg Dz × Option (List Nat)) × Res Unit :=
  let s1 : ProxyCtx Eg Ez Dg Dz × Option (List Nat) :=
    match ctx.compressor with
    | some c =>
      let r := Compreessor0.encode c (body.getD []) endF
      ({ ctx with compressor := some r.1 }, some r.2)
    | none => (ctx, body)
  match s1.1.decompressor with
  | some d =>
    match Decompreessor0.encode d (s1.2.getD []) endF with
    | (d', Res.ok out) => (({ s1.1 with decompressor := some d' }, some out), Res.ok ())
    | (d', Res.err e) => (({ s1.1 with decompressor := some d' }, s1.2), Res.err e)
    | (d', Res.panic) => (({ s1.1 with decompressor := some d' }, s1.2), Res.panic)
  | none => (s1, Res.ok ())

/-- Drive a fresh-style compressor over a list of body chunks, final
flag on the last chunk, collecting the per-call outputs. -/
def compressDrive (B : EncBox) (c : CompressorSt B) :
    List (List Nat) → CompressorSt B × List (List Nat)
  | [] => (c, [])
  | [x] =>
    let r := Compressor.encode B c x true
    (r.1, [r.2])
  | x :: y :: ys =>
    let r := Compressor.encode B c x false
    let s := compressDrive B r.1 (y :: ys)
    (s.1, r.2 :: s.2)

/-- Drive a decompressor over a list of chunks, final flag on the last
chunk; `none` as soon as a call does not return `Res.ok`. -/
def decompressDrive (B : DecBox) (d : DecompressorSt B) :
    List (List Nat) → DecompressorSt B × Option (List (List Nat))
  | [] => (d, some [])
  | [x] =>
    match Decompressor.encode B d x true with
    | (d', Res.ok o) => (d', some [o])
    | (d', _) => (d', none)
  | x :: y :: ys =>
    match Decompressor.encode B d x false with
    | (d', Res.ok o) =>
      match decompressDrive B d' (y :: ys) with
      | (d'', some os) => (d'', some (o :: os))
      | (d'', none) => (d'', none)
    | (d', _) => (d', none)

/-- Run the raw encoder box over a list of chunks (each through
`write_all`), concatenating the emitted bytes. -/
def encBoxRun (B : EncBox) (st : B.St) : List (List Nat) → B.St × List Nat
  | [] => (st, [])
  | x :: xs =>
    let p := encWriteAll B st x
    let q := encBoxRun B p.1 xs
    (q.1, p.2 ++ q.2)

/-- All bytes the raw encoder emits for a chunked stream: the writes
followed by the final `finish`. -/
def encDenoteFrom (B : EncBox) (st : B.St) (cs : List (List Nat)) : List Nat :=
  let p := encBoxRun B st cs
  p.2 ++ (B.finish p.1).2

/-- Run the raw decoder box over a list of chunks, stopping at the
first error. -/
def decBoxRun (B : DecBox) (st : B.St) : List (List Nat) → B.St × Except String (List Nat)
  | [] => (st, Except.ok [])
  | x :: xs =>
    match decWriteAll B st x with
    | (st1, Except.error e) => (st1, Except.error e)
    | (st1, Except.ok o1) =>
      match decBoxRun B st1 xs with
      | (st2, Except.error e) => (st2, Except.error e)
      | (st2, Except.ok o2) => (st2, Except.ok (o1 ++ o2))

/-- All bytes the raw decoder emits for a chunked stream (writes, then
the final `try_finish`); `none` when any step fails. -/
def decDenoteFrom (B : DecBox) (st : B.St) (cs : List (List Nat)) : Option (List Nat) :=
  match decBoxRun B st cs with
  | (_, Except.error _) => none
  | (st1, Except.ok o) =>
    match B.tryFinish st1 with
    | (_, Except.error _) => none
    | (_, Except.ok o2) => some (o ++ o2)

/-- `decDenoteFrom` from the decoder's initial state. -/
def decBoxDenote (B : DecBox) (cs : List (List Nat)) : Option (List Nat) :=
  decDenoteFrom B B.init cs

/-- Run an arbitrary compressor-shaped `encode` over a list of
`(chunk, final-flag)` calls, collecting outputs. -/
def encRunWith {B : EncBox}
    (f : CompressorSt B → List Nat → Bool → CompressorSt B × List Nat)
    (c : CompressorSt B) : List (List Nat × Bool) → CompressorSt B × List (List Nat)
  | [] => (c, [])
  | a :: as =>
    let r := f c a.1 a.2
    let s := encRunWith f r.1 as
    (s.1, r.2 :: s.2)

/-- Run an arbitrary decompressor-shaped `encode` over a list of
`(chunk, final-flag)` calls; `none` as soon as a call is not `Res.ok`. -/
def decRunWith {B : DecBox}
    (f : DecompressorSt B → List Nat → Bool → DecompressorSt B × Res (List Nat))
    (d : DecompressorSt B) : List (List Nat × Bool) → DecompressorSt B × Option (List (List Nat))
  | [] => (d, some [])
  | a :: as =>
    match f d a.1 a.2 with
    | (d', Res.ok o) =>
      match decRunWith f d' as with
      | (d'', some os) => (d'', some (o :: os))
      | (d'', none) => (d'', none)
    | (d', _) => (d', none)

/-- A concrete (degenerate) encoder box: the identity codec, which
emits each chunk verbatim and has nothing to flush.  Used to
instantiate theorems at concrete inputs. -/
def unitEncBox : EncBox :=
  ⟨Unit, (), fun s x => (s, x), fun s => (s, [])⟩

/-- A concrete (degenerate) decoder box: the identity codec, which
never fails. -/
def unitDecBox : DecBox :=
  ⟨Unit, (), fun s x => (s, Except.ok x), fun s => (s, Except.ok [])⟩

/-- A concrete decoder box whose `write` always reports malformed
input (e.g. bytes that are not valid gzip/zstd data). -/
def errWriteDecBox : DecBox :=
  ⟨Unit, (), fun s _ => (s, Except.error "bad"), fun s => (s, Except.ok [])⟩

/-- A concrete decoder box that buffers its input without error but
whose end-of-stream flush reports an error (e.g. a truncated frame
detected at finish time). -/
def errFlushDecBox : DecBox :=
  ⟨Unit, (), fun s _ => (s, Except.ok []), fun s => (s, Except.error "truncated")⟩

/-- ASCII lowercase of a string (HTTP header values naming transfer
codings are compared case-insensitively). -/
def lowerAscii (s : String) : String := String.mk (s.data.map Char.toLower)

theorem hdrGet_append (l m : Headers) (k : String) :
    hdrGet (l ++ m) k =
      match hdrGet l k with
      | some v => some v
      | none => hdrGet m k := by
  induction l with
  | nil => simp [hdrGet]
  | cons p t ih =>
    obtain ⟨k', v⟩ := p
    by_cases h : k' = k <;> simp [hdrGet, h, ih]

theorem hdrGet_remove_same (h : Headers) (k : String) :
    hdrGet (hdrRemove h k) k = none := by
  induction h with
  | nil => simp [hdrRemove, hdrGet]
  | cons p t ih =>
    obtain ⟨k', v⟩ := p
    by_cases hk : k' = k <;> simp [hdrRemove, hdrGet, hk, ih]

theorem hdrGet_remove_ne (h : Headers) (k k' : String) (hne : k' ≠ k) :
    hdrGet (hdrRemove h k) k' = hdrGet h k' := by
  induction h with
  | nil => simp [hdrRemove]
  | cons p t ih =>
    obtain ⟨k0, v⟩ := p
    by_cases hk : k0 = k
    · subst hk
      simp [hdrRemove, hdrGet, ih, Ne.symm hne]
    · simp [hdrRemove, hdrGet, hk, ih]

theorem hdrGet_insert_same (h : Headers) (k v : String) :
    hdrGet (hdrInsert h k v) k = some v := by
  rw [hdrInsert, hdrGet_append, hdrGet_remove_same]
  simp [hdrGet]

theorem hdrGet_insert_ne (h : Headers) (k v k' : String) (hne : k' ≠ k) :
    hdrGet (hdrInsert h k v) k' = hdrGet h k' := by
  rw [hdrInsert, hdrGet_append, hdrGet_remove_ne h k k' hne]
  cases hg : hdrGet h k' <;> simp [hdrGet, Ne.symm hne]

/-- C1: header symmetry of the one-time decision step.  A request with
no `content-encoding` leaves the filter carrying `content-encoding`
set to the configured format name, a `transfer-encoding` value that is
`chunked` up to ASCII case, and any pre-existing `content-length`
moved into the `crd-content-length` side-channel header (gone from
`content-length` itself).  A request carrying `content-encoding`
together with the side-channel header leaves the filter with
`content-length` restored to the side-channel value and no
`transfer-encoding` header at all. -/
theorem header_symmetry (Eg Ez : EncBox) (Dg Dz : DecBox) (zstdCfg : Bool)
    (req : Headers) (ctx : ProxyCtx Eg Ez Dg Dz) :
    (hdrGet req "content-encoding" = none →
      hdrGet (upstreamRequestFilter Eg Ez Dg Dz zstdCfg req ctx).1 "content-encoding"
          = some (if zstdCfg then "zstd" else "gzip")
      ∧ (hdrGet (upstreamRequestFilter Eg Ez Dg Dz zstdCfg req ctx).1 "transfer-encoding").map
            lowerAscii = some "chunked"
      ∧ ∀ v, hdrGet req "content-length" = some v →
          hdrGet (upstreamRequestFilter Eg Ez Dg Dz zstdCfg req ctx).1 "crd-content-length" = some v
          ∧ hdrGet (upstreamRequestFilter Eg Ez Dg Dz zstdCfg req ctx).1 "content-length" = none)
    ∧ (∀ enc v, hdrGet req "content-encoding" = some enc →
        hdrGet req "crd-content-length" = some v →
        hdrGet (upstreamRequestFilter Eg Ez Dg Dz zstdCfg req ctx).1 "content-length" = some v
        ∧ hdrGet (upstreamRequestFilter Eg Ez Dg Dz zstdCfg req ctx).1 "transfer-encoding" = none) := by
  constructor
  · intro hce
    simp only [upstreamRequestFilter, hce, if_pos]
    cases zstdCfg <;>
      cases hcl : hdrGet req "content-length" <;>
        simp only [Bool.false_eq_true, if_false, if_true] <;>
          refine ⟨?_, ?_, ?_⟩
    · rw [hdrGet_insert_ne _ _ _ _ (by decide), hdrGet_insert_same]
    · rw [hdrGet_insert_same]
      rfl
    · intro v hv
      cases hv
    · rw [hdrGet_insert_ne _ _ _ _ (by decide), hdrGet_insert_same]
    · rw [hdrGet_insert_same]
      rfl
    · intro v hv
      cases hv
      constructor
      · rw [hdrGet_insert_ne _ _ _ _ (by decide),
            hdrGet_insert_ne _ _ _ _ (by decide), hdrGet_insert_same]
      · rw [hdrGet_insert_ne _ _ _ _ (by decide),
            hdrGet_insert_ne _ _ _ _ (by decide),
            hdrGet_insert_ne _ _ _ _ (by decide), hdrGet_remove_same]
    · rw [hdrGet_insert_ne _ _ _ _ (by decide), hdrGet_insert_same]
    · rw [hdrGet_insert_same]
      rfl
    · intro v hv
      cases hv
    · rw [hdrGet_insert_ne _ _ _ _ (by decide), hdrGet_insert_same]
    · rw [hdrGet_insert_same]
      rfl
    · intro v hv
      cases hv
      constructor
      · rw [hdrGet_insert_ne _ _ _ _ (by decide),
            hdrGet_insert_ne _ _ _ _ (by decide), hdrGet_insert_same]
      · rw [hdrGet_insert_ne _ _ _ _ (by decide),
            hdrGet_insert_ne _ _ _ _ (by decide),
            hdrGet_insert_ne _ _ _ _ (by decide), hdrGet_remove_same]
  · intro enc v hce hcrd
    have hne : ¬ hdrGet req "content-encoding" = none := by
      rw [hce]
      intro h
      cases h
    simp only [upstreamRequestFilter, if_neg hne]
    cases zstdCfg <;> simp only [Bool.false_eq_true, if_false, if_true]
    · have h1 : hdrGet (hdrInsert req "accept-encoding" "gzip") "crd-content-length"
          = some v := by
        rw [hdrGet_insert_ne _ _ _ _ (by decide)]
        exact hcrd
      rw [h1]
      constructor
      · rw [hdrGet_remove_ne _ _ _ (by decide), hdrGet_insert_same]
      · rw [hdrGet_remove_same]
    · have h1 : hdrGet (hdrInsert req "accept-encoding" "zstd") "crd-content-length"
          = some v := by
        rw [hdrGet_insert_ne _ _ _ _ (by decide)]
        exact hcrd
      rw [h1]
      constructor
      · rw [hdrGet_remove_ne _ _ _ (by decide), hdrGet_insert_same]
      · rw [hdrGet_remove_same]

/-- C1 witness: both directions of `header_symmetry` evaluated on
concrete requests through the identity codec boxes. -/
theorem header_symmetry_witness :
    (hdrGet (upstreamRequestFilter unitEncBox unitEncBox unitDecBox unitDecBox false
          [("content-length", "7")] (newCtx unitEncBox unitEncBox unitDecBox unitDecBox)).1
        "content-encoding" = some "gzip"
      ∧ (hdrGet (upstreamRequestFilter unitEncBox unitEncBox unitDecBox unitDecBox false
            [("content-length", "7")] (newCtx unitEncBox unitEncBox unitDecBox unitDecBox)).1
          "transfer-encoding").map lowerAscii = some "chunked"
      ∧ hdrGet (upstreamRequestFilter unitEncBox unitEncBox unitDecBox unitDecBox false
            [("content-length", "7")] (newCtx unitEncBox unitEncBox unitDecBox unitDecBox)).1
          "crd-content-length" = some "7"
      ∧ hdrGet (upstreamRequestFilter unitEncBox unitEncBox unitDecBox unitDecBox false
            [("content-length", "7")] (newCtx unitEncBox unitEncBox unitDecBox unitDecBox)).1
          "content-length" = none)
    ∧ (hdrGet (upstreamRequestFilter unitEncBox unitEncBox unitDecBox unitDecBox true
          [("content-encoding", "zstd"), ("crd-content-length", "1234")]
          (newCtx unitEncBox unitEncBox unitDecBox unitDecBox)).1 "content-length" = some "1234"
      ∧ hdrGet (upstreamRequestFilter unitEncBox unitEncBox unitDecBox unitDecBox true
          [("content-encoding", "zstd"), ("crd-content-length", "1234")]
          (newCtx unitEncBox unitEncBox unitDecBox unitDecBox)).1 "transfer-encoding" = none) := by
  have h1 := (header_symmetry unitEncBox unitEncBox unitDecBox unitDecBox false
    [("content-length", "7")] (newCtx unitEncBox unitEncBox unitDecBox unitDecBox)).1 (by decide)
  have h2 := (header_symmetry unitEncBox unitEncBox unitDecBox unitDecBox true
    [("content-encoding", "zstd"), ("crd-content-length", "1234")]
    (newCtx unitEncBox unitEncBox unitDecBox unitDecBox)).2 "zstd" "1234" (by decide) (by decide)
  exact ⟨⟨h1.1, h1.2.1, (h1.2.2 "7" (by decide)).1, (h1.2.2 "7" (by decide)).2⟩, h2⟩

/-- C3 counterexample: a request whose `content-encoding` is `gzip`,
processed by a proxy configured with the zstd switch, gets a zstd
decompressor — the observed encoding value is ignored, so the claim
that gzip input gets a gzip decompressor independent of the static
configuration switch is false. -/
theorem decoder_family_ignores_observed_encoding :
    (upstreamRequestFilter unitEncBox unitEncBox unitDecBox unitDecBox true
        [("content-encoding", "gzip")]
        (newCtx unitEncBox unitEncBox unitDecBox unitDecBox)).2.decompressor.map
      Decompreessor0.fam = some Fam.zstd
    ∧ Fam.zstd ≠ Fam.gzip := by
  constructor
  · rfl
  · decide

/-- C3 (amended): when the request already carries `content-encoding`,
the decision step transitions to `Decompress` and instantiates a fresh
decompressor of the family chosen by the proxy's static configuration
switch (zstd when configured, gzip otherwise), regardless of the
observed encoding value; the same configured format is advertised via
`accept-encoding`. -/
theorem decoder_family_from_config (Eg Ez : EncBox) (Dg Dz : DecBox) (zstdCfg : Bool)
    (req : Headers) (ctx : ProxyCtx Eg Ez Dg Dz) (enc : String)
    (hce : hdrGet req "content-encoding" = some enc) :
    (upstreamRequestFilter Eg Ez Dg Dz zstdCfg req ctx).2.op = Op.Decompress
    ∧ (upstreamRequestFilter Eg Ez Dg Dz zstdCfg req ctx).2.decompressor
        = some (if zstdCfg then Decompreessor0.Zstd (ZstdDecompressor.new Dz)
                else Decompreessor0.Gzip (Decompressor.new Dg))
    ∧ hdrGet (upstreamRequestFilter Eg Ez Dg Dz zstdCfg req ctx).1 "accept-encoding"
        = some (if zstdCfg then "zstd" else "gzip") := by
  have hne : ¬ hdrGet req "content-encoding" = none := by
    rw [hce]
    intro h
    cases h
  simp only [upstreamRequestFilter, if_neg hne]
  cases zstdCfg <;> simp only [Bool.false_eq_true, if_false, if_true] <;>
    refine ⟨by trivial, by trivial, ?_⟩
  · cases hcrd : hdrGet (hdrInsert req "accept-encoding" "gzip") "crd-content-length"
    · rw [hdrGet_insert_same]
    · rw [hdrGet_remove_ne _ _ _ (by decide), hdrGet_insert_ne _ _ _ _ (by decide),
        hdrGet_insert_same]
  · cases hcrd : hdrGet (hdrInsert req "accept-encoding" "zstd") "crd-content-length"
    · rw [hdrGet_insert_same]
    · rw [hdrGet_remove_ne _ _ _ (by decide), hdrGet_insert_ne _ _ _ _ (by decide),
        hdrGet_insert_same]

/-- C3 witness: a request observed with `content-encoding: zstd` on a
gzip-configured proxy gets a gzip decompressor. -/
theorem decoder_family_from_config_witness :
    (upstreamRequestFilter unitEncBox unitEncBox unitDecBox unitDecBox false
        [("content-encoding", "zstd")]
        (newCtx unitEncBox unitEncBox unitDecBox unitDecBox)).2.op = Op.Decompress
    ∧ (upstreamRequestFilter unitEncBox unitEncBox unitDecBox unitDecBox false
        [("content-encoding", "zstd")]
        (newCtx unitEncBox unitEncBox unitDecBox unitDecBox)).2.decompressor
        = some (if false then Decompreessor0.Zstd (ZstdDecompressor.new unitDecBox)
                else Decompreessor0.Gzip (Decompressor.new unitDecBox))
    ∧ hdrGet (upstreamRequestFilter unitEncBox unitEncBox unitDecBox unitDecBox false
        [("content-encoding", "zstd")]
        (newCtx unitEncBox unitEncBox unitDecBox unitDecBox)).1 "accept-encoding"
        = some (if false then "zstd" else "gzip") :=
  decoder_family_from_config unitEncBox unitEncBox unitDecBox unitDecBox false
    [("content-encoding", "zstd")] (newCtx unitEncBox unitEncBox unitDecBox unitDecBox)
    "zstd" (by decide)

/-- C9 (code bug): on the decompressing side, the filter restores
`content-length` from the `crd-content-length` side-channel header but
never removes the side-channel header itself, so it stays on the
outgoing request headers and is forwarded beyond the proxy pair.  The
spec requires the side-channel headers not to leak. -/
theorem crd_header_not_removed :
    hdrGet (upstreamRequestFilter unitEncBox unitEncBox unitDecBox unitDecBox true
        [("content-encoding", "zstd"), ("crd-content-length", "1234")]
        (newCtx unitEncBox unitEncBox unitDecBox unitDecBox)).1 "crd-content-length"
      = some "1234"
    ∧ hdrGet (upstreamRequestFilter unitEncBox unitEncBox unitDecBox unitDecBox true
        [("content-encoding", "zstd"), ("crd-content-length", "1234")]
        (newCtx unitEncBox unitEncBox unitDecBox unitDecBox)).1 "content-length"
      = some "1234" := by
  constructor
  · rfl
  · rfl

/-- C7 counterexample: the zstd decompressor reserves twice the input
length even at the 4 KiB threshold (and above), where the claim says
exactly the input length is reserved. -/
theorem zstd_reserve_no_threshold :
    MAX_INIT_COMPRESSED_SIZE_CAP ≤ 4096
    ∧ ZstdDecompressorReserveSize 4096 = 8192
    ∧ (8192 : Nat) ≠ 4096 := by
  refine ⟨by decide, by decide, by decide⟩

/-- C7 (amended): only the gzip decompressor uses the threshold
policy — triple the input length below the 4 KiB cap, exactly the
input length at or above it; the zstd decompressor reserves twice the
input length unconditionally. -/
theorem reserve_size_policy (len : Nat) :
    (len < 4 * 1024 → DecompressorReserveSize len = 3 * len)
    ∧ (4 * 1024 ≤ len → DecompressorReserveSize len = len)
    ∧ ZstdDecompressorReserveSize len = 2 * len := by
  refine ⟨?_, ?_, ?_⟩
  · intro h
    simp only [DecompressorReserveSize, MAX_INIT_COMPRESSED_SIZE_CAP, estCompressionFactor,
      if_pos h]
    omega
  · intro h
    have hlt : ¬ len < 4 * 1024 := by omega
    simp only [DecompressorReserveSize, MAX_INIT_COMPRESSED_SIZE_CAP, if_neg hlt]
  · simp only [ZstdDecompressorReserveSize]
    omega

/-- C7 witness: the amended reserve policy evaluated at concrete
lengths on both sides of the threshold. -/
theorem reserve_size_policy_witness :
    DecompressorReserveSize 10 = 30
    ∧ DecompressorReserveSize 5000 = 5000
    ∧ ZstdDecompressorReserveSize 10 = 20 :=
  ⟨(reserve_size_policy 10).1 (by decide),
   (reserve_size_policy 5000).2.1 (by decide),
   (reserve_size_policy 10).2.2⟩

/-- C8: an `encode`/`transform` call with an empty chunk and a false
final flag is a no-op for all four codec variants: it succeeds with an
empty output and leaves the whole codec state — underlying codec
state, buffer, `total_in`, `total_out` — exactly as it was (in
particular the underlying codec's `finish`/`flush` is never invoked:
the resulting state is the pre-call state for every conceivable box,
including ones whose `finish` changes state).  Iterating such calls
any number of times is likewise the identity. -/
theorem empty_nonfinal_noop :
    (∀ (B : EncBox) (c : CompressorSt B), c.buf = [] →
        Compressor.encode B c [] false = (c, []))
    ∧ (∀ (B : EncBox) (c : CompressorSt B), c.buf = [] →
        ZstdCompressor.encode B c [] false = (c, []))
    ∧ (∀ (B : DecBox) (d : DecompressorSt B), d.buf = [] →
        Decompressor.encode B d [] false = (d, Res.ok []))
    ∧ (∀ (B : DecBox) (d : DecompressorSt B), d.buf = [] →
        ZstdDecompressor.encode B d [] false = (d, Res.ok []))
    ∧ (∀ (B : EncBox) (c : CompressorSt B) (n : Nat), c.buf = [] →
        (fun s => (Compressor.encode B s [] false).1)^[n] c = c)
    ∧ (∀ (B : DecBox) (d : DecompressorSt B) (n : Nat), d.buf = [] →
        (fun s => (Decompressor.encode B s [] false).1)^[n] d = d) := by
  have h1 : ∀ (B : EncBox) (c : CompressorSt B), c.buf = [] →
      Compressor.encode B c [] false = (c, []) := by
    intro B c hc
    obtain ⟨st, buf, ti, tout⟩ := c
    change buf = [] at hc
    subst hc
    rfl
  have h2 : ∀ (B : EncBox) (c : CompressorSt B), c.buf = [] →
      ZstdCompressor.encode B c [] false = (c, []) := by
    intro B c hc
    obtain ⟨st, buf, ti, tout⟩ := c
    change buf = [] at hc
    subst hc
    rfl
  have h3 : ∀ (B : DecBox) (d : DecompressorSt B), d.buf = [] →
      Decompressor.encode B d [] false = (d, Res.ok []) := by
    intro B d hd
    obtain ⟨st, buf, ti, tout⟩ := d
    change buf = [] at hd
    subst hd
    rfl
  have h4 : ∀ (B : DecBox) (d : DecompressorSt B), d.buf = [] →
      ZstdDecompressor.encode B d [] false = (d, Res.ok []) := by
    intro B d hd
    obtain ⟨st, buf, ti, tout⟩ := d
    change buf = [] at hd
    subst hd
    rfl
  refine ⟨h1, h2, h3, h4, ?_, ?_⟩
  · intro B c n hc
    exact Function.iterate_fixed (congrArg Prod.fst (h1 B c hc)) n
  · intro B d n hd
    exact Function.iterate_fixed (congrArg Prod.fst (h3 B d hd)) n

/-- C8 witness: the no-op call evaluated on fresh codecs over the
identity boxes. -/
theorem empty_nonfinal_noop_witness :
    Compressor.encode unitEncBox (Compressor.new unitEncBox) [] false
      = (Compressor.new unitEncBox, [])
    ∧ Decompressor.encode unitDecBox (Decompressor.new unitDecBox) [] false
      = (Decompressor.new unitDecBox, Res.ok []) :=
  ⟨empty_nonfinal_noop.1 unitEncBox (Compressor.new unitEncBox) rfl,
   empty_nonfinal_noop.2.2.1 unitDecBox (Decompressor.new unitDecBox) rfl⟩

/-- C4 counterexample: a decompressing transform can end in a panic
rather than a `Result` error — `ZstdDecompressor::encode` unwraps the
final `flush()`, so a decoder whose end-of-stream flush reports an
error (e.g. a truncated frame detected at finish time) panics. -/
theorem zstd_flush_error_panics :
    (ZstdDecompressor.encode errFlushDecBox (ZstdDecompressor.new errFlushDecBox)
      [0] true).2 = Res.panic := rfl

/-- C4 (amended): the compressing path is infallible — whenever no
decompressor is active, the body filter returns `Ok` for every input;
the gzip decompressor surfaces every failure (malformed chunk or
failing finish) as a `Result` error and never panics; the zstd
decompressor surfaces a failing chunk write as a `Result` error, but a
failure reported by the end-of-stream flush is unwrapped into a panic. -/
theorem fallibility_profile :
    (∀ (Eg Ez : EncBox) (Dg Dz : DecBox) (ctx : ProxyCtx Eg Ez Dg Dz)
        (body : Option (List Nat)) (endF : Bool),
        ctx.decompressor = none →
        (requestBodyFilter Eg Ez Dg Dz ctx body endF).2 = Res.ok ())
    ∧ (∀ (B : DecBox) (d : DecompressorSt B) (input : List Nat) (endF : Bool),
        (Decompressor.encode B d input endF).2 ≠ Res.panic)
    ∧ (∀ (B : DecBox) (d : DecompressorSt B) (input : List Nat) (endF : Bool)
        (st1 : B.St) (msg : String),
        decWriteAll B d.st input = (st1, Except.error msg) →
        (Decompressor.encode B d input endF).2 = Res.err msg
        ∧ (ZstdDecompressor.encode B d input endF).2 = Res.err msg)
    ∧ (∀ (B : DecBox) (d : DecompressorSt B) (input : List Nat)
        (st1 : B.St) (o1 : List Nat) (st2 : B.St) (msg : String),
        decWriteAll B d.st input = (st1, Except.ok o1) →
        B.tryFinish st1 = (st2, Except.error msg) →
        (Decompressor.encode B d input true).2 = Res.err msg
        ∧ (ZstdDecompressor.encode B d input true).2 = Res.panic) := by
  refine ⟨?_, ?_, ?_, ?_⟩
  · intro Eg Ez Dg Dz ctx body endF hd
    cases hcomp : ctx.compressor <;> simp [requestBodyFilter, hcomp, hd]
  · intro B d input endF
    rcases hw : decWriteAll B d.st input with ⟨st1, e1⟩
    cases e1 with
    | error e => simp [Decompressor.encode, hw]
    | ok o1 =>
      cases endF
      · simp [Decompressor.encode, hw]
      · rcases hf : B.tryFinish st1 with ⟨st2, e2⟩
        cases e2 <;> simp [Decompressor.encode, hw, hf]
  · intro B d input endF st1 msg hw
    constructor <;> simp [Decompressor.encode, ZstdDecompressor.encode, hw]
  · intro B d input st1 o1 st2 msg hw hf
    constructor <;> simp [Decompressor.encode, ZstdDecompressor.encode, hw, hf]

/-- C4 witness: a malformed chunk through both decompressor variants
yields a `Result` error. -/
theorem fallibility_profile_witness :
    (Decompressor.encode errWriteDecBox (Decompressor.new errWriteDecBox) [5] false).2
      = Res.err "bad"
    ∧ (ZstdDecompressor.encode errWriteDecBox (Decompressor.new errWriteDecBox) [5] false).2
      = Res.err "bad" :=
  fallibility_profile.2.2.1 errWriteDecBox (Decompressor.new errWriteDecBox) [5] false
    () "bad" rfl

/-- C5 counterexample: a failed `encode` call does change the counters
reported by `stat()` — `total_in` is bumped before the fallible write,
so after a failing call `stat()` differs from its pre-call value. -/
theorem failed_decode_mutates_total_in :
    Decompressor.stat
        ((Decompressor.encode errWriteDecBox (Decompressor.new errWriteDecBox) [7] false).1)
      ≠ Decompressor.stat (Decompressor.new errWriteDecBox)
    ∧ (Decompressor.encode errWriteDecBox (Decompressor.new errWriteDecBox) [7] false).2
      = Res.err "bad" := by
  constructor
  · decide
  · rfl

/-- C5 (amended): a failed `encode` call leaves `total_out` untouched
but has already added the chunk's length to `total_in`: after any
non-`Ok` call, `stat()` reports exactly
`(label, total_in + input.length, total_out)` relative to the pre-call
state. -/
theorem failed_decode_counter_effect :
    (∀ (B : DecBox) (d : DecompressorSt B) (input : List Nat) (endF : Bool) (msg : String),
        (Decompressor.encode B d input endF).2 = Res.err msg →
        Decompressor.stat (Decompressor.encode B d input endF).1
          = ("de-gzip", d.total_in + input.length, d.total_out))
    ∧ (∀ (B : DecBox) (d : DecompressorSt B) (input : List Nat) (endF : Bool),
        (∀ o, (ZstdDecompressor.encode B d input endF).2 ≠ Res.ok o) →
        ZstdDecompressor.stat (ZstdDecompressor.encode B d input endF).1
          = ("de-zstd", d.total_in + input.length, d.total_out)) := by
  constructor
  · intro B d input endF msg h
    rcases hw : decWriteAll B d.st input with ⟨st1, e1⟩
    cases e1 with
    | error e => simp [Decompressor.encode, Decompressor.stat, hw]
    | ok o1 =>
      cases endF
      · simp [Decompressor.encode, hw] at h
      · rcases hf : B.tryFinish st1 with ⟨st2, e2⟩
        cases e2 with
        | error e => simp [Decompressor.encode, Decompressor.stat, hw, hf]
        | ok o2 => simp [Decompressor.encode, hw, hf] at h
  · intro B d input endF h
    rcases hw : decWriteAll B d.st input with ⟨st1, e1⟩
    cases e1 with
    | error e => simp [ZstdDecompressor.encode, ZstdDecompressor.stat, hw]
    | ok o1 =>
      cases endF
      · exact absurd (by simp [ZstdDecompressor.encode, hw]) (h (d.buf ++ o1))
      · rcases hf : B.tryFinish st1 with ⟨st2, e2⟩
        cases e2 with
        | error e => simp [ZstdDecompressor.encode, ZstdDecompressor.stat, hw, hf]
        | ok o2 => exact absurd (by simp [ZstdDecompressor.encode, hw, hf]) (h (d.buf ++ o1 ++ o2))

/-- C5 witness: the amended counter effect evaluated on a failing
write through a fresh gzip decompressor. -/
theorem failed_decode_counter_effect_witness :
    Decompressor.stat
        ((Decompressor.encode errWriteDecBox (Decompressor.new errWriteDecBox) [7] false).1)
      = ("de-gzip", 1, 0) :=
  failed_decode_counter_effect.1 errWriteDecBox (Decompressor.new errWriteDecBox) [7] false
    "bad" rfl

/-- C10: while a codec is active, the body filter always repopulates
the body slot: with a compressor held (and no decompressor), the call
returns `Ok` and replaces the body — a `None` body standing in for the
empty chunk — with `Some` of the compressor's output; with a
decompressor held (and no compressor), any successful decode likewise
leaves `Some` of the decoder's (possibly empty) output. -/
theorem body_filter_populates_body (Eg Ez : EncBox) (Dg Dz : DecBox)
    (ctx : ProxyCtx Eg Ez Dg Dz) (body : Option (List Nat)) (endF : Bool) :
    (∀ c, ctx.compressor = some c → ctx.decompressor = none →
        requestBodyFilter Eg Ez Dg Dz ctx body endF
          = (({ ctx with compressor := some (Compreessor0.encode c (body.getD []) endF).1 },
              some (Compreessor0.encode c (body.getD []) endF).2), Res.ok ()))
    ∧ (∀ d d' out, ctx.compressor = none → ctx.decompressor = some d →
        Decompreessor0.encode d (body.getD []) endF = (d', Res.ok out) →
        requestBodyFilter Eg Ez Dg Dz ctx body endF
          = (({ ctx with decompressor := some d' }, some out), Res.ok ())) := by
  constructor
  · intro c hc hd
    simp [requestBodyFilter, hc, hd]
  · intro d d' out hc hd henc
    simp [requestBodyFilter, hc, hd, henc]

/-- C10 witness: a `None` body through a compressing context comes out
as `Some` of the compressor's output. -/
theorem body_filter_populates_body_witness :
    requestBodyFilter unitEncBox unitEncBox unitDecBox unitDecBox
        ⟨Op.Compress, some (Compreessor0.Gzip (Compressor.new unitEncBox)), none⟩ none true
      = ((⟨Op.Compress, some (Compreessor0.Gzip ⟨(), [], 0, 0⟩), none⟩, some []), Res.ok ()) :=
  (body_filter_populates_body unitEncBox unitEncBox unitDecBox unitDecBox
      ⟨Op.Compress, some (Compreessor0.Gzip (Compressor.new unitEncBox)), none⟩ none true).1
    (Compreessor0.Gzip (Compressor.new unitEncBox)) rfl rfl

theorem encDenoteFrom_nil (B : EncBox) (st : B.St) :
    encDenoteFrom B st [] = (B.finish st).2 := by
  simp [encDenoteFrom, encBoxRun]

theorem encDenoteFrom_cons (B : EncBox) (st : B.St) (x : List Nat) (t : List (List Nat)) :
    encDenoteFrom B st (x :: t)
      = (encWriteAll B st x).2 ++ encDenoteFrom B (encWriteAll B st x).1 t := by
  simp [encDenoteFrom, encBoxRun, List.append_assoc]

theorem compressDrive_flatten (B : EncBox) :
    ∀ (cs : List (List Nat)) (st : B.St) (buf : List Nat) (ti tout : Nat), cs ≠ [] →
      ((compressDrive B ⟨st, buf, ti, tout⟩ cs).2).flatten = buf ++ encDenoteFrom B st cs := by
  intro cs
  induction cs with
  | nil =>
    intro st buf ti tout h
    exact absurd rfl h
  | cons x t ih =>
    intro st buf ti tout _
    cases t with
    | nil =>
      simp [compressDrive, Compressor.encode, encDenoteFrom_cons, encDenoteFrom_nil,
        List.append_assoc]
    | cons y ys =>
      have h2 := ih (encWriteAll B st x).1 [] (ti + x.length)
        (tout + (buf ++ (encWriteAll B st x).2).length) (by simp)
      simp only [compressDrive, Compressor.encode, Bool.false_eq_true, if_false,
        List.flatten_cons] at h2 ⊢
      rw [h2]
      simp [encDenoteFrom_cons, List.append_assoc]

theorem compressDrive_ne (B : EncBox) (c : CompressorSt B) (cs : List (List Nat))
    (h : cs ≠ []) : (compressDrive B c cs).2 ≠ [] := by
  cases cs with
  | nil => exact absurd rfl h
  | cons x t => cases t <;> simp [compressDrive]

theorem decDenoteFrom_nil (B : DecBox) (st : B.St) :
    decDenoteFrom B st []
      = match B.tryFinish st with
        | (_, Except.error _) => none
        | (_, Except.ok o2) => some o2 := by
  rcases hf : B.tryFinish st with ⟨st2, e2⟩
  cases e2 <;> simp [decDenoteFrom, decBoxRun, hf]

theorem decDenoteFrom_cons (B : DecBox) (st : B.St) (x : List Nat) (t : List (List Nat)) :
    decDenoteFrom B st (x :: t)
      = match decWriteAll B st x with
        | (_, Except.error _) => none
        | (st1, Except.ok o1) => (decDenoteFrom B st1 t).map (fun r => o1 ++ r) := by
  rcases hw : decWriteAll B st x with ⟨st1, e1⟩
  cases e1 with
  | error e => simp [decDenoteFrom, decBoxRun, hw]
  | ok o1 =>
    rcases hr : decBoxRun B st1 t with ⟨st2, e2⟩
    cases e2 with
    | error e => simp [decDenoteFrom, decBoxRun, hw, hr]
    | ok o2 =>
      rcases hf : B.tryFinish st2 with ⟨st3, e3⟩
      cases e3 <;> simp [decDenoteFrom, decBoxRun, hw, hr, hf, List.append_assoc]

theorem decompressDrive_flatten (B : DecBox) :
    ∀ (cs : List (List Nat)) (st : B.St) (buf : List Nat) (ti tout : Nat) (r : List Nat),
      cs ≠ [] → decDenoteFrom B st cs = some r →
      ∃ os, (decompressDrive B ⟨st, buf, ti, tout⟩ cs).2 = some os
        ∧ os.flatten = buf ++ r := by
  intro cs
  induction cs with
  | nil =>
    intro st buf ti tout r h
    exact absurd rfl h
  | cons x t ih =>
    intro st buf ti tout r _ hden
    rcases hw : decWriteAll B st x with ⟨st1, e1⟩
    cases e1 with
    | error e =>
      simp [decDenoteFrom_cons, hw] at hden
    | ok o1 =>
      cases t with
      | nil =>
        rcases hf : B.tryFinish st1 with ⟨st2, e2⟩
        cases e2 with
        | error e =>
          simp [decDenoteFrom_cons, hw, decDenoteFrom_nil, hf] at hden
        | ok o2 =>
          simp [decDenoteFrom_cons, hw, decDenoteFrom_nil, hf] at hden
          subst hden
          refine ⟨[buf ++ o1 ++ o2], ?_, ?_⟩
          · simp [decompressDrive, Decompressor.encode, hw, hf]
          · simp [List.append_assoc]
      | cons y ys =>
        have hden2 : (decDenoteFrom B st1 (y :: ys)).map (fun q => o1 ++ q) = some r := by
          rw [decDenoteFrom_cons, hw] at hden
          exact hden
        rcases hsub : decDenoteFrom B st1 (y :: ys) with _ | r'
        · rw [hsub] at hden2
          simp at hden2
        · rw [hsub] at hden2
          simp at hden2
          subst hden2
          obtain ⟨os', h1, h2⟩ := ih st1 [] (ti + x.length) (tout + (buf ++ o1).length) r'
            (by simp) hsub
          rcases hdrv : decompressDrive B ⟨st1, [], ti + x.length, tout + (buf ++ o1).length⟩
              (y :: ys) with ⟨dfin, oos⟩
          rw [hdrv] at h1
          simp at h1
          subst h1
          refine ⟨(buf ++ o1) :: os', ?_, ?_⟩
          · simp only [decompressDrive, Decompressor.encode, hw, Bool.false_eq_true, if_false]
            rw [hdrv]
          · simp [h2, List.append_assoc]

/-- C2: chunked round-trip through the wrapper pair.  For any body
`b`, any chunking `cs` of `b`, any underlying compressing codec whose
chunked-run denotation is a function `encFn` of the concatenated
input, and any matching decompressing codec that recovers `b` from any
chunking of `encFn b`: driving a fresh `Compressor` over the chunks
(final flag on the last), then driving a fresh `Decompressor` over the
resulting per-call compressed outputs (final flag on the last),
succeeds and reproduces exactly `b`. -/
theorem compress_decompress_roundtrip (BE : EncBox) (BD : DecBox)
    (encFn : List Nat → List Nat) (b : List Nat) (cs : List (List Nat))
    (hne : cs ≠ []) (hflat : cs.flatten = b)
    (hE : ∀ ds, encDenoteFrom BE BE.init ds = encFn ds.flatten)
    (hD : ∀ ds, ds.flatten = encFn b → decBoxDenote BD ds = some b) :
    ∃ os, (decompressDrive BD (Decompressor.new BD)
            (compressDrive BE (Compressor.new BE) cs).2).2 = some os
      ∧ os.flatten = b := by
  have h1 : ((compressDrive BE (Compressor.new BE) cs).2).flatten = encFn b := by
    have h0 := compressDrive_flatten BE cs BE.init [] 0 0 hne
    simp only [List.nil_append] at h0
    rw [hE cs, hflat] at h0
    exact h0
  have h2 : decBoxDenote BD ((compressDrive BE (Compressor.new BE) cs).2) = some b :=
    hD _ h1
  obtain ⟨os, ho1, ho2⟩ := decompressDrive_flatten BD
    ((compressDrive BE (Compressor.new BE) cs).2) BD.init [] 0 0 b
    (compressDrive_ne BE (Compressor.new BE) cs hne) h2
  exact ⟨os, ho1, by simpa using ho2⟩

theorem unitEncBox_denote (cs : List (List Nat)) :
    encDenoteFrom unitEncBox unitEncBox.init cs = cs.flatten := by
  induction cs with
  | nil => rfl
  | cons x t ih =>
    rw [encDenoteFrom_cons]
    cases x with
    | nil => simpa [encWriteAll, unitEncBox] using ih
    | cons a as => simpa [encWriteAll, unitEncBox] using ih

theorem unitDecBox_run (cs : List (List Nat)) :
    decBoxRun unitDecBox () cs = ((), Except.ok cs.flatten) := by
  induction cs with
  | nil => rfl
  | cons x t ih =>
    cases x with
    | nil => simp [decBoxRun, decWriteAll, ih]
    | cons a as =>
      have hw : decWriteAll unitDecBox () (a :: as) = ((), Except.ok (a :: as)) := rfl
      simp [decBoxRun, hw, ih]

theorem unitDecBox_denote (cs : List (List Nat)) :
    decBoxDenote unitDecBox cs = some cs.flatten := by
  have hf : unitDecBox.tryFinish () = ((), Except.ok []) := rfl
  have h0 : decBoxRun unitDecBox unitDecBox.init cs = ((), Except.ok cs.flatten) :=
    unitDecBox_run cs
  simp [decBoxDenote, decDenoteFrom, h0, hf]

/-- C2 witness: the round-trip theorem applied to a concrete chunking
of `[1, 2, 3]` through the identity boxes. -/
theorem compress_decompress_roundtrip_witness :
    ∃ os, (decompressDrive unitDecBox (Decompressor.new unitDecBox)
            (compressDrive unitEncBox (Compressor.new unitEncBox) [[1], [2, 3]]).2).2 = some os
      ∧ os.flatten = [1, 2, 3] :=
  compress_decompress_roundtrip unitEncBox unitDecBox (fun l => l) [1, 2, 3] [[1], [2, 3]]
    (by simp) rfl
    (fun ds => unitEncBox_denote ds)
    (fun ds h => by rw [unitDecBox_denote ds, h])

theorem encRunWith_counters {B : EncBox}
    (f : CompressorSt B → List Nat → Bool → CompressorSt B × List Nat)
    (hf : ∀ c i e, (f c i e).1.total_in = c.total_in + i.length
        ∧ (f c i e).1.total_out = c.total_out + (f c i e).2.length) :
    ∀ (calls : List (List Nat × Bool)) (c : CompressorSt B),
      (encRunWith f c calls).1.total_in = c.total_in + (calls.map (fun a => a.1.length)).sum
      ∧ (encRunWith f c calls).1.total_out
          = c.total_out + (((encRunWith f c calls).2).map List.length).sum := by
  intro calls
  induction calls with
  | nil =>
    intro c
    simp [encRunWith]
  | cons a as ih =>
    intro c
    obtain ⟨h1, h2⟩ := hf c a.1 a.2
    obtain ⟨h3, h4⟩ := ih (f c a.1 a.2).1
    constructor
    · simp only [encRunWith, List.map_cons, List.sum_cons]
      rw [h3, h1]
      omega
    · simp only [encRunWith, List.map_cons, List.sum_cons]
      rw [h4, h2]
      omega

theorem decRunWith_counters {B : DecBox}
    (f : DecompressorSt B → List Nat → Bool → DecompressorSt B × Res (List Nat))
    (hf : ∀ d i e d' o, f d i e = (d', Res.ok o) →
        d'.total_in = d.total_in + i.length ∧ d'.total_out = d.total_out + o.length) :
    ∀ (calls : List (List Nat × Bool)) (d d' : DecompressorSt B) (os : List (List Nat)),
      decRunWith f d calls = (d', some os) →
      d'.total_in = d.total_in + (calls.map (fun a => a.1.length)).sum
      ∧ d'.total_out = d.total_out + (os.map List.length).sum := by
  intro calls
  induction calls with
  | nil =>
    intro d d' os h
    simp [decRunWith] at h
    obtain ⟨rfl, rfl⟩ := h
    simp
  | cons a as ih =>
    intro d d' os h
    rcases hfa : f d a.1 a.2 with ⟨dm, r0⟩
    cases r0 with
    | ok o =>
      rcases hrec : decRunWith f dm as with ⟨dn, oos⟩
      cases oos with
      | some os' =>
        simp only [decRunWith, hfa, hrec] at h
        simp at h
        obtain ⟨rfl, rfl⟩ := h
        obtain ⟨h1, h2⟩ := hf d a.1 a.2 dm o hfa
        obtain ⟨h3, h4⟩ := ih dm dn os' hrec
        constructor
        · simp only [List.map_cons, List.sum_cons]
          omega
        · simp only [List.map_cons, List.sum_cons]
          omega
      | none =>
        simp only [decRunWith, hfa, hrec] at h
        simp at h
    | err e =>
      simp only [decRunWith, hfa] at h
      simp at h
    | panic =>
      simp only [decRunWith, hfa] at h
      simp at h

theorem decEncode_ok_counters (B : DecBox) :
    ∀ (d : DecompressorSt B) (i : List Nat) (e : Bool) (d' : DecompressorSt B) (o : List Nat),
      Decompressor.encode B d i e = (d', Res.ok o) →
      d'.total_in = d.total_in + i.length ∧ d'.total_out = d.total_out + o.length := by
  intro d i e d' o h
  rcases hw : decWriteAll B d.st i with ⟨st1, e1⟩
  cases e1 with
  | error m => simp [Decompressor.encode, hw] at h
  | ok o1 =>
    cases e with
    | false =>
      simp [Decompressor.encode, hw] at h
      obtain ⟨rfl, rfl⟩ := h
      simp
    | true =>
      rcases hf : B.tryFinish st1 with ⟨st2, e2⟩
      cases e2 with
      | error m => simp [Decompressor.encode, hw, hf] at h
      | ok o2 =>
        simp [Decompressor.encode, hw, hf] at h
        obtain ⟨rfl, rfl⟩ := h
        simp

theorem zstdDecEncode_ok_counters (B : DecBox) :
    ∀ (d : DecompressorSt B) (i : List Nat) (e : Bool) (d' : DecompressorSt B) (o : List Nat),
      ZstdDecompressor.encode B d i e = (d', Res.ok o) →
      d'.total_in = d.total_in + i.length ∧ d'.total_out = d.total_out + o.length := by
  intro d i e d' o h
  rcases hw : decWriteAll B d.st i with ⟨st1, e1⟩
  cases e1 with
  | error m => simp [ZstdDecompressor.encode, hw] at h
  | ok o1 =>
    cases e with
    | false =>
      simp [ZstdDecompressor.encode, hw] at h
      obtain ⟨rfl, rfl⟩ := h
      simp
    | true =>
      rcases hf : B.tryFinish st1 with ⟨st2, e2⟩
      cases e2 with
      | error m => simp [ZstdDecompressor.encode, hw, hf] at h
      | ok o2 =>
        simp [ZstdDecompressor.encode, hw, hf] at h
        obtain ⟨rfl, rfl⟩ := h
        simp

/-- C6: for each of the four codec variants, after any sequence of
`encode` calls from a fresh instance (all successful, which for the
compressing variants is automatic), `total_in` equals the sum of the
input chunk lengths fed so far and `total_out` equals the sum of the
lengths of all returned output buffers. -/
theorem counters_sum_correct :
    (∀ (B : EncBox) (calls : List (List Nat × Bool)),
        (encRunWith (Compressor.encode B) (Compressor.new B) calls).1.total_in
          = (calls.map (fun a => a.1.length)).sum
        ∧ (encRunWith (Compressor.encode B) (Compressor.new B) calls).1.total_out
          = (((encRunWith (Compressor.encode B) (Compressor.new B) calls).2).map
              List.length).sum)
    ∧ (∀ (B : EncBox) (calls : List (List Nat × Bool)),
        (encRunWith (ZstdCompressor.encode B) (ZstdCompressor.new B) calls).1.total_in
          = (calls.map (fun a => a.1.length)).sum
        ∧ (encRunWith (ZstdCompressor.encode B) (ZstdCompressor.new B) calls).1.total_out
          = (((encRunWith (ZstdCompressor.encode B) (ZstdCompressor.new B) calls).2).map
              List.length).sum)
    ∧ (∀ (B : DecBox) (calls : List (List Nat × Bool)) (d' : DecompressorSt B)
          (os : List (List Nat)),
        decRunWith (Decompressor.encode B) (Decompressor.new B) calls = (d', some os) →
        d'.total_in = (calls.map (fun a => a.1.length)).sum
        ∧ d'.total_out = (os.map List.length).sum)
    ∧ (∀ (B : DecBox) (calls : List (List Nat × Bool)) (d' : DecompressorSt B)
          (os : List (List Nat)),
        decRunWith (ZstdDecompressor.encode B) (ZstdDecompressor.new B) calls
          = (d', some os) →
        d'.total_in = (calls.map (fun a => a.1.length)).sum
        ∧ d'.total_out = (os.map List.length).sum) := by
  refine ⟨?_, ?_, ?_, ?_⟩
  · intro B calls
    have h := encRunWith_counters (Compressor.encode B) (fun c i e => ⟨rfl, rfl⟩) calls
      (Compressor.new B)
    simpa [Compressor.new] using h
  · intro B calls
    have h := encRunWith_counters (ZstdCompressor.encode B) (fun c i e => ⟨rfl, rfl⟩) calls
      (ZstdCompressor.new B)
    simpa [ZstdCompressor.new] using h
  · intro B calls d' os h
    have h2 := decRunWith_counters (Decompressor.encode B) (decEncode_ok_counters B) calls
      (Decompressor.new B) d' os h
    simpa [Decompressor.new] using h2
  · intro B calls d' os h
    have h2 := decRunWith_counters (ZstdDecompressor.encode B) (zstdDecEncode_ok_counters B)
      calls (ZstdDecompressor.new B) d' os h
    simpa [ZstdDecompressor.new] using h2

/-- C6 witness: a single successful two-byte decode through the
identity box leaves `total_in = total_out = 2`. -/
theorem counters_sum_correct_witness :
    (⟨(), [], 2, 2⟩ : DecompressorSt unitDecBox).total_in
        = (([([3, 4], true)] : List (List Nat × Bool)).map (fun a => a.1.length)).sum
    ∧ (⟨(), [], 2, 2⟩ : DecompressorSt unitDecBox).total_out
        = (([[3, 4]] : List (List Nat)).map List.length).sum :=
  counters_sum_correct.2.2.1 unitDecBox [([3, 4], true)] ⟨(), [], 2, 2⟩ [[3, 4]] rfl
